import Mathlib

/-!
Verification development for the CamPoint data-preparation core
(`scannetv2/dataset.py`, `s3dis/dataset.py`).

Geometry is embedded over `ℚ` (exact arithmetic in place of float32);
per-point arrays are Lean lists; the external voxel-subsampling
primitives (`grid_subsampling`, `grid_subsampling_test`) are oracle
parameters; the Python `random` draws consumed by the training pipeline
are passed explicitly as a draw record, and the test pipeline receives
(and provably ignores) a random stream.
-/

set_option maxHeartbeats 1000000

/-- A 3-vector of rationals: one point / color / normal row. -/
abbrev Vec3 := ℚ × ℚ × ℚ

/-- Binary minimum on `ℚ`, written out so that it evaluates by kernel
reduction (it provably agrees with `min`). -/
def qmin (a b : ℚ) : ℚ := if a ≤ b then a else b

/-- Binary maximum on `ℚ` (agrees with `max`). -/
def qmax (a b : ℚ) : ℚ := if a ≤ b then b else a

theorem qmin_eq_min (a b : ℚ) : qmin a b = min a b := (min_def a b).symm

theorem qmax_eq_max (a b : ℚ) : qmax a b = max a b := (max_def a b).symm

/-- Minimum of a list of rationals (0 for the empty list; the code never
takes a min of an empty tensor on the paths we model). -/
def qminList : List ℚ → ℚ
  | [] => 0
  | x :: xs => xs.foldl qmin x

/-- Maximum of a list of rationals. -/
def qmaxList : List ℚ → ℚ
  | [] => 0
  | x :: xs => xs.foldl qmax x

/-- Componentwise minimum over the rows, as in `coords.min(0)` /
`xyz.min(dim=0)`. -/
def vminList (ps : List Vec3) : Vec3 :=
  (qminList (ps.map (fun p => p.1)),
   qminList (ps.map (fun p => p.2.1)),
   qminList (ps.map (fun p => p.2.2)))

/-- Componentwise maximum over the rows, as in `coords.max(0)`. -/
def vmaxList (ps : List Vec3) : Vec3 :=
  (qmaxList (ps.map (fun p => p.1)),
   qmaxList (ps.map (fun p => p.2.1)),
   qmaxList (ps.map (fun p => p.2.2)))

/-- `xyz -= xyz.min(dim=0)[0]`: translate so the per-axis minimum is 0. -/
def recenter (ps : List Vec3) : List Vec3 :=
  ps.map (fun p => p - vminList ps)

/-- `(q - pt).square().sum(dim=1)` for one row: squared distance. -/
def sqnorm (v : Vec3) : ℚ := v.1 * v.1 + v.2.1 * v.2.1 + v.2.2 * v.2.2

/-- Fancy-indexing `xs[indices]`: fails (like torch) when an index is out
of range. -/
def gather : List ℕ → List α → Option (List α)
  | [], _ => some []
  | i :: is, xs =>
    match xs[i]?, gather is xs with
    | some x, some ys => some (x :: ys)
    | _, _ => none

/-- Total order on positions used by `argsort`: compare by the distance
value, break ties by position. -/
def argsortRel (d : List ℚ) (i j : ℕ) : Prop :=
  d.getD i 0 < d.getD j 0 ∨ (d.getD i 0 = d.getD j 0 ∧ i ≤ j)

instance (d : List ℚ) : DecidableRel (argsortRel d) := fun i j => by
  unfold argsortRel; infer_instance

/-- `d.argsort()`: the positions `0, …, len d − 1` ordered by increasing
value of `d`. -/
def argsort (d : List ℚ) : List ℕ :=
  List.insertionSort (argsortRel d) (List.range d.length)

/-- `d.argsort()[:voxelMax].sort()[0]` — the crop's `condition` vector
(`dataset.py`, the sort-after-select step). -/
def cropCondition (d : List ℚ) (voxelMax : ℕ) : List ℕ :=
  List.insertionSort (· ≤ ·) ((argsort d).take voxelMax)

/-- The locality-preserving crop applied to the subsampled positions and
the shared index vector (`__getitem__`, both datasets): when more than
`voxelMax` points survive subsampling, keep the `voxelMax` points
nearest the anchor `xyz[anchor % N]`, re-sorted into original order, and
select the same rows from `indices`; otherwise leave both unchanged. -/
def cropStepO (voxelMax anchor : ℕ) (xyz : List Vec3) (indices : List ℕ) :
    Option (List Vec3 × List ℕ) :=
  if voxelMax < xyz.length then
    let pt := xyz.getD (anchor % xyz.length) 0
    let d := xyz.map (fun q => sqnorm (q - pt))
    let cond := cropCondition d voxelMax
    match gather cond xyz, gather cond indices with
    | some xs, some is2 => some (xs, is2)
    | _, _ => none
  else
    some (xyz, indices)

/-- `rotations = [0, 0.5, 1, 1.5]` (fractions of π), `get_test_item`. -/
def rotations : List ℚ := [0, 1/2, 1, 3/2]

/-- `scales = [0.95, 1, 1.05]`, `get_test_item`. -/
def scales : List ℚ := [19/20, 1, 21/20]

/-- The deterministic test enumeration (`ScanNetV2.get_test_item` lines
223–228 and 233–237): maps `(loop, idx)` to the subsampling pick, the
rotation index and the scale index. -/
def testEnumTriple (loop idx : ℕ) : ℕ × ℕ × ℕ :=
  let augs := rotations.length * scales.length
  let aug0 := idx % loop
  let pick := aug0 / augs
  let aug := aug0 % augs
  (pick, aug / scales.length, aug % scales.length)

/-- `torch.tensor([[cos, sin, 0], [-sin, cos, 0], [0, 0, 1]])`. -/
def rotmat {R : Type} [CommRing R] (c s : R) : Matrix (Fin 3) (Fin 3) R :=
  !![c, s, 0; -s, c, 0; 0, 0, 1]

/-- View a row as a `Fin 3`-indexed vector. -/
def toFin3 (v : Vec3) : Fin 3 → ℚ := ![v.1, v.2.1, v.2.2]

/-- Row-vector–matrix product `v @ M` on one row. -/
def rowMul (v : Vec3) (M : Matrix (Fin 3) (Fin 3) ℚ) : Vec3 :=
  (Matrix.vecMul (toFin3 v) M 0,
   Matrix.vecMul (toFin3 v) M 1,
   Matrix.vecMul (toFin3 v) M 2)

theorem rowMul_rotmat (c s : ℚ) (v : Vec3) :
    rowMul v (rotmat c s) = (v.1 * c - v.2.1 * s, v.1 * s + v.2.1 * c, v.2.2) := by
  simp [rowMul, rotmat, toFin3, Matrix.vecMul, Matrix.dotProduct, Fin.sum_univ_three]
  all_goals ring

theorem rowMul_smul (k : ℚ) (M : Matrix (Fin 3) (Fin 3) ℚ) (v : Vec3) :
    rowMul v (k • M) = k • rowMul v M := by
  simp [rowMul, Matrix.vecMul, Matrix.dotProduct, Fin.sum_univ_three, Matrix.smul_apply,
    Prod.smul_def, smul_eq_mul]
  repeat' apply And.intro
  all_goals ring

/-! ## Elastic Distortion Engine (`ElasticDistortion.elastic_distortion`) -/

/-- A noise grid: a 3-vector of values at every integer node (the random
field `np.random.randn(*noise_dim, 3)`, extended by 0 outside the array,
which models the `mode='constant', cval=0` padding). -/
abbrev GridF := ℤ → ℤ → ℤ → Vec3

/-- The blur kernel `np.ones(3) / 3` as (offset, weight) taps. -/
def kernel3 : List (ℤ × ℚ) := [(-1, 1/3), (0, 1/3), (1, 1/3)]

/-- Shift a grid index by `t` along axis `a`. -/
def shiftIdx (a : Fin 3) (i j k t : ℤ) : ℤ × ℤ × ℤ :=
  match a with
  | 0 => (i - t, j, k)
  | 1 => (i, j - t, k)
  | 2 => (i, j, k - t)

/-- `scipy.ndimage.convolve` with the length-3 kernel along axis `a`
(the kernel is symmetric, so flipping it is immaterial). -/
def convolveAxis (a : Fin 3) (f : GridF) : GridF :=
  fun i j k =>
    kernel3.foldl
      (fun acc ow =>
        let p := shiftIdx a i j k ow.1
        acc + ow.2 • f p.1 p.2.1 p.2.2)
      0

/-- The spec's wording of one smoothing convolution: a length-3 uniform
averaging kernel along axis `a`. -/
def avgAxis (a : Fin 3) (f : GridF) : GridF :=
  fun i j k =>
    match a with
    | 0 => (1/3 : ℚ) • (f (i-1) j k + f i j k + f (i+1) j k)
    | 1 => (1/3 : ℚ) • (f i (j-1) k + f i j k + f i (j+1) k)
    | 2 => (1/3 : ℚ) • (f i j (k-1) + f i j k + f i j (k+1))

theorem vec3_eq {u v : Vec3} (h1 : u.1 = v.1) (h2 : u.2.1 = v.2.1)
    (h3 : u.2.2 = v.2.2) : u = v := by
  obtain ⟨a, b, c⟩ := u
  obtain ⟨d, e, f⟩ := v
  simp only [Prod.mk.injEq] at h1 h2 h3 ⊢
  exact ⟨h1, h2, h3⟩

theorem convolveAxis_eq_avgAxis (a : Fin 3) (f : GridF) :
    convolveAxis a f = avgAxis a f := by
  funext i j k
  fin_cases a <;>
    (apply vec3_eq <;>
      simp [convolveAxis, avgAxis, kernel3, shiftIdx, Prod.smul_def, smul_eq_mul,
        Prod.fst_add, Prod.snd_add] <;> ring)

/-- Zero outside the stored array of shape `d` (array storage between
convolution passes: the array has a fixed shape, everything else is 0). -/
def maskGrid (d : ℕ × ℕ × ℕ) (f : GridF) : GridF :=
  fun i j k =>
    if (0 ≤ i ∧ i < (d.1 : ℤ)) ∧ (0 ≤ j ∧ j < (d.2.1 : ℤ)) ∧
       (0 ≤ k ∧ k < (d.2.2 : ℤ)) then f i j k else 0

/-- One stored convolution: convolve along axis `a` (reading the zero
padding) and store the result back into the shape-`d` array. -/
def smoothStep (d : ℕ × ℕ × ℕ) (a : Fin 3) (f : GridF) : GridF :=
  maskGrid d (convolveAxis a f)

/-- One full three-axis pass (`blurx`, `blury`, `blurz`). -/
def smoothOnce (d : ℕ × ℕ × ℕ) (f : GridF) : GridF :=
  smoothStep d 2 (smoothStep d 1 (smoothStep d 0 f))

/-- The smoothing loop `for _ in range(2)` — 6 convolutions total —
applied to the raw noise array. -/
def smoothNoise (d : ℕ × ℕ × ℕ) (noise : GridF) : GridF :=
  smoothOnce d (smoothOnce d (maskGrid d noise))

/-- The spec's wording of the smoothing: two full three-axis passes of
the length-3 uniform averaging kernel, zero padding, stored per pass. -/
def smoothNoiseSpec (d : ℕ × ℕ × ℕ) (noise : GridF) : GridF :=
  maskGrid d (avgAxis 2 (maskGrid d (avgAxis 1 (maskGrid d (avgAxis 0
    (maskGrid d (avgAxis 2 (maskGrid d (avgAxis 1 (maskGrid d (avgAxis 0
      (maskGrid d noise))))))))))))

theorem smoothNoise_eq_spec (d : ℕ × ℕ × ℕ) (noise : GridF) :
    smoothNoise d noise = smoothNoiseSpec d noise := by
  simp [smoothNoise, smoothNoiseSpec, smoothOnce, smoothStep, convolveAxis_eq_avgAxis]

/-- `floor((max − min) / granularity) + 3`: the noise-grid shape on one
axis (`noise_dim` in the source). -/
def noiseDim (extent g : ℚ) : ℕ := (Int.floor (extent / g)).toNat + 3

/-- The noise-grid shape derived from the input coordinates. -/
def elasticDims (coords : List Vec3) (g : ℚ) : ℕ × ℕ × ℕ :=
  let mn := vminList coords
  let extent := vmaxList (coords.map (fun p => p - mn))
  (noiseDim extent.1 g, noiseDim extent.2.1 g, noiseDim extent.2.2 g)

/-- First interpolation node on an axis: `min − granularity`. -/
def axisLo (m g : ℚ) : ℚ := m - g

/-- Last interpolation node on an axis: `min + granularity·(d − 2)`. -/
def axisHi (m g : ℚ) (d : ℕ) : ℚ := m + g * ((d : ℚ) - 2)

/-- `np.linspace(lo, hi, d)` node `t`, traced as
`lo + (hi − lo)/(d − 1) · t`. -/
def linNode (m g : ℚ) (d : ℕ) (t : ℕ) : ℚ :=
  axisLo m g + (axisHi m g d - axisLo m g) / ((d : ℚ) - 1) * (t : ℚ)

theorem linNode_eq (m g : ℚ) (d : ℕ) (hd : 2 ≤ d) (t : ℕ) :
    linNode m g d t = m - g + g * (t : ℚ) := by
  have hd1 : ((d : ℚ) - 1) ≠ 0 := by
    have : (2 : ℚ) ≤ (d : ℚ) := by exact_mod_cast hd
    intro h
    nlinarith
  unfold linNode axisLo axisHi
  field_simp
  ring

/-- In-bounds test on one axis of the interpolant
(`RegularGridInterpolator(..., bounds_error=False, fill_value=0)`). -/
def inBounds1 (m g : ℚ) (d : ℕ) (x : ℚ) : Prop :=
  axisLo m g ≤ x ∧ x ≤ axisHi m g d

instance (m g : ℚ) (d : ℕ) (x : ℚ) : Decidable (inBounds1 m g d x) := by
  unfold inBounds1; infer_instance

/-- In-bounds test for a 3D query point. -/
def inBounds (mn : Vec3) (g : ℚ) (d : ℕ × ℕ × ℕ) (q : Vec3) : Prop :=
  inBounds1 mn.1 g d.1 q.1 ∧ inBounds1 mn.2.1 g d.2.1 q.2.1 ∧
    inBounds1 mn.2.2 g d.2.2 q.2.2

instance (mn : Vec3) (g : ℚ) (d : ℕ × ℕ × ℕ) (q : Vec3) :
    Decidable (inBounds mn g d q) := by
  unfold inBounds; infer_instance

/-- Cell index on one axis: the node interval containing `x`, clamped to
the last interior cell (`d − 2`). -/
def cellIdx (m g : ℚ) (d : ℕ) (x : ℚ) : ℕ :=
  min (d - 2) (Int.toNat (Int.floor ((x - (m - g)) / g)))

/-- Barycentric weight of `x` inside its cell: distance from the lower
node over the node spacing, as the interpolator computes it from the
node array. -/
def cellW (m g : ℚ) (d : ℕ) (x : ℚ) : ℚ :=
  (x - linNode m g d (cellIdx m g d x)) /
    (linNode m g d (cellIdx m g d x + 1) - linNode m g d (cellIdx m g d x))

/-- Linear interpolation between two grid values. -/
def lerp (w : ℚ) (u v : Vec3) : Vec3 := (1 - w) • u + w • v

/-- Trilinear interpolation of the field `f` at query `q`; out-of-bounds
queries return the fill value 0. -/
def triInterp (f : GridF) (mn : Vec3) (g : ℚ) (d : ℕ × ℕ × ℕ) (q : Vec3) : Vec3 :=
  if inBounds mn g d q then
    let i : ℤ := cellIdx mn.1 g d.1 q.1
    let j : ℤ := cellIdx mn.2.1 g d.2.1 q.2.1
    let k : ℤ := cellIdx mn.2.2 g d.2.2 q.2.2
    let wx := cellW mn.1 g d.1 q.1
    let wy := cellW mn.2.1 g d.2.1 q.2.1
    let wz := cellW mn.2.2 g d.2.2 q.2.2
    lerp wz
      (lerp wy (lerp wx (f i j k) (f (i+1) j k))
               (lerp wx (f i (j+1) k) (f (i+1) (j+1) k)))
      (lerp wy (lerp wx (f i j (k+1)) (f (i+1) j (k+1)))
               (lerp wx (f i (j+1) (k+1)) (f (i+1) (j+1) (k+1))))
  else 0

/-- One elastic-distortion pass (`ElasticDistortion.elastic_distortion`):
smooth the noise grid, build the interpolant, and displace every input
point by `interp(point) · magnitude`. -/
def elastic_distortion (coords : List Vec3) (g m : ℚ) (noise : GridF) :
    List Vec3 :=
  let mn := vminList coords
  let d := elasticDims coords g
  let sm := smoothNoise d noise
  coords.map (fun p => p + m • triInterp sm mn g d p)

/-- `self.distortion_params = [[0.2, 0.4], [0.8, 1.6]]`. -/
def distortion_params : List (ℚ × ℚ) := [(1/5, 2/5), (4/5, 8/5)]

/-- `ElasticDistortion.__call__`: with the skip branch decided by the
draw `applyEls` (`random.random() < 0.95`), sequentially compose one
distortion pass per `(granularity, magnitude)` pair, each with its own
fresh noise field. -/
def elsCall (applyEls : Bool) (noises : List GridF) (coord : List Vec3) :
    List Vec3 :=
  if applyEls then
    (distortion_params.zip noises).foldl
      (fun c pn => elastic_distortion c pn.1.1 pn.1.2 pn.2) coord
  else coord

/-! ## Scenes, samples and the loaded-store lifecycle -/

/-- A loaded ScanNetV2 scene: the tuple `(xyz, col, norm, lbl)` stored in
one `.pt` file. -/
structure SceneSN where
  xyz : List Vec3
  col : List Vec3
  norm : List Vec3
  lbl : List ℤ
deriving DecidableEq, Inhabited

/-- A loaded S3DIS scene: the tuple `(xyz, col, lbl)`. -/
structure SceneS3 where
  xyz : List Vec3
  col : List Vec3
  lbl : List ℤ
deriving DecidableEq, Inhabited

/-- The sample handed to the external bridge: positions, the assembled
per-point feature rows, labels, and the raw (unscaled) color copy. -/
structure Sample where
  pos : List Vec3
  feature : List (List ℚ)
  lbl : List ℤ
  rgb : List Vec3
deriving DecidableEq, Inhabited

/-- Spec §7's row-alignment condition on a loaded scene: all per-point
tensors agree in point count. -/
def rowAligned (sc : SceneSN) : Prop :=
  sc.col.length = sc.xyz.length ∧ sc.norm.length = sc.xyz.length ∧
    sc.lbl.length = sc.xyz.length

instance (sc : SceneSN) : Decidable (rowAligned sc) := by
  unfold rowAligned; infer_instance

/-- Warmup selection (`__init__`, both datasets): full linear scan
keeping the first scene of maximal point count (`max_n = 0`, strict
comparison). -/
def warmupSelect (scenes : List SceneSN) : SceneSN :=
  (scenes.foldl
    (fun acc sc => if acc.1 < sc.xyz.length then (sc.xyz.length, sc) else acc)
    (0, scenes.headD default)).2

/-- `ScanNetV2.__init__` after path resolution: assert the scene list is
nonempty, then in train+warmup mode keep only the largest scene.  No
per-scene shape validation is performed. -/
def scanInit (scenes : List SceneSN) (train warmup : Bool) :
    Option (List SceneSN) :=
  if scenes.length = 0 then none
  else if train && warmup then some [warmupSelect scenes]
  else some scenes

/-! ## Training pipeline -/

/-- All values drawn from the `random` source by one ScanNetV2 training
call, in draw order: rotation cosine/sine (from the uniform angle), the
uniform scale in `[0.8, 1.2]`, the elastic-distortion skip coin and its
two noise fields, the crop anchor choice, and the color/normal coins. -/
structure TrainDraws where
  c : ℚ
  s : ℚ
  k : ℚ
  applyEls : Bool
  noise1 : GridF
  noise2 : GridF
  anchor : ℕ
  dropColor : Bool
  doContrast : Bool
  contrastAlpha : ℚ
  dropNorm : Bool

/-- The training rigid transform (`__getitem__` lines 173–178): normals
are multiplied by the unscaled rotation matrix, then the matrix is
scaled by `k` and applied to positions. -/
def trainRigid (c s k : ℚ) (xyz norm : List Vec3) :
    List Vec3 × List Vec3 :=
  let M := rotmat c s
  let norm1 := norm.map (fun v => rowMul v M)
  let M2 := k • M
  (xyz.map (fun v => rowMul v M2), norm1)

/-- The contrast-stretch blend branch of color augmentation. -/
def contrastStretch (a : ℚ) (col : List Vec3) : List Vec3 :=
  let colmin := vminList col
  let colmax := vmaxList col
  let sc : Vec3 := (255 / (colmax.1 - colmin.1), 255 / (colmax.2.1 - colmin.2.1),
    255 / (colmax.2.2 - colmin.2.2))
  col.map (fun v =>
    ((1 - a + a * sc.1) * v.1 - a * colmin.1 * sc.1,
     (1 - a + a * sc.2.1) * v.2.1 - a * colmin.2.1 * sc.2.1,
     (1 - a + a * sc.2.2) * v.2.2 - a * colmin.2.2 * sc.2.2))

/-- Training color augmentation (`__getitem__` lines 196–205): drop all
color, or optionally contrast-stretch and always rescale by `1/250`. -/
def colorAug (dropColor doContrast : Bool) (a : ℚ) (col : List Vec3) :
    List Vec3 :=
  if dropColor then col.map (fun _ => (0 : Vec3))
  else
    (if doContrast then contrastStretch a col else col).map
      (fun v => ((1 : ℚ) / 250) • v)

/-- `torch.cat([col, height, norm], dim=1)` row by row. -/
def featRows : List Vec3 → List ℚ → List Vec3 → List (List ℚ)
  | c :: cs, h :: hs, n :: ns =>
    [c.1, c.2.1, c.2.2, h, n.1, n.2.1, n.2.2] :: featRows cs hs ns
  | _, _, _ => []

/-- `torch.cat([col, height], dim=1)` row by row (S3DIS: no normals). -/
def featRowsS3 : List Vec3 → List ℚ → List (List ℚ)
  | c :: cs, h :: hs => [c.1, c.2.1, c.2.2, h] :: featRowsS3 cs hs
  | _, _ => []

/-- `ScanNetV2.__getitem__` in training mode, for one already-selected
scene.  `gridSub` is the external `grid_subsampling` oracle (cell size
0.02, ratio 2.5/1.5 folded in), `d` the record of random draws. -/
def scannetTrainItem (gridSub : List Vec3 → List ℕ) (voxelMax : ℕ)
    (scene : SceneSN) (d : TrainDraws) : Option Sample :=
  let pr := trainRigid d.c d.s d.k scene.xyz scene.norm
  let norm1 := pr.2
  let xyz2 := elsCall d.applyEls [d.noise1, d.noise2] pr.1
  let xyz3 := recenter xyz2
  let indices := gridSub xyz3
  match gather indices xyz3 with
  | none => none
  | some xyz4 =>
    match cropStepO voxelMax d.anchor xyz4 indices with
    | none => none
    | some pr2 =>
      match gather pr2.2 scene.col, gather pr2.2 scene.lbl, gather pr2.2 norm1 with
      | some col1, some lbl1, some norm2 =>
        let rgb := col1
        let col2 := colorAug d.dropColor d.doContrast d.contrastAlpha col1
        let norm3 := if d.dropNorm then norm2.map (fun _ => (0 : Vec3)) else norm2
        let height := pr2.1.map (fun p => p.2.2)
        some ⟨pr2.1, featRows col2 height norm3, lbl1, rgb⟩
      | _, _, _ => none

/-- All values drawn by one S3DIS training call: rotation cosine/sine,
uniform scale, the per-point Gaussian jitter field, the crop anchor and
the color coins. -/
structure TrainDrawsS3 where
  c : ℚ
  s : ℚ
  k : ℚ
  jitter : ℕ → Vec3
  anchor : ℕ
  dropColor : Bool
  doContrast : Bool
  contrastAlpha : ℚ

/-- `S3DIS.__getitem__` in training mode: rotation+scale (normals
absent), additive Gaussian jitter instead of elastic distortion,
re-center, subsample, crop, color-augment, assemble features. -/
def s3disTrainItem (gridSub : List Vec3 → List ℕ) (voxelMax : ℕ)
    (scene : SceneS3) (d : TrainDrawsS3) : Option Sample :=
  let M2 := d.k • rotmat d.c d.s
  let xyz1 := scene.xyz.map (fun v => rowMul v M2)
  let xyz2 := xyz1.mapIdx (fun i p => p + d.jitter i)
  let xyz3 := recenter xyz2
  let indices := gridSub xyz3
  match gather indices xyz3 with
  | none => none
  | some xyz4 =>
    match cropStepO voxelMax d.anchor xyz4 indices with
    | none => none
    | some pr2 =>
      match gather pr2.2 scene.col, gather pr2.2 scene.lbl with
      | some col1, some lbl1 =>
        let rgb := col1
        let col2 := colorAug d.dropColor d.doContrast d.contrastAlpha col1
        let height := pr2.1.map (fun p => p.2.2)
        some ⟨pr2.1, featRowsS3 col2 height, lbl1, rgb⟩
      | _, _ => none

/-! ## Deterministic test enumeration -/

/-- `cos(π · rotations[i])` for the four catalog angles, exactly. -/
def rotCosTab : List ℚ := [1, 0, -1, 0]

/-- `sin(π · rotations[i])` for the four catalog angles, exactly. -/
def rotSinTab : List ℚ := [0, 1, 0, -1]

theorem rotCosTab_spec (i : ℕ) (hi : i < 4) :
    ((rotCosTab.getD i 1 : ℚ) : ℝ) =
      Real.cos (Real.pi * ((rotations.getD i 0 : ℚ) : ℝ)) ∧
    ((rotSinTab.getD i 0 : ℚ) : ℝ) =
      Real.sin (Real.pi * ((rotations.getD i 0 : ℚ) : ℝ)) := by
  interval_cases i
  · simp [rotCosTab, rotSinTab, rotations]
  · simp [rotCosTab, rotSinTab, rotations]
    simp [← div_eq_mul_inv]
  · simp [rotCosTab, rotSinTab, rotations]
  · simp [rotCosTab, rotSinTab, rotations]
    rw [show Real.pi * ((3 : ℝ) / 2) = Real.pi + Real.pi / 2 by ring]
    simp [Real.cos_add, Real.sin_add]

/-- `ScanNetV2.get_test_item` for one already-selected scene.
`oracleTest` is the external `grid_subsampling_test` primitive
(positions, pick ↦ indices); `rng` is the process random stream, which
this path never consults. -/
def scannetTestItem (oracleTest : List Vec3 → ℕ → List ℕ) (loop : ℕ)
    (scene : SceneSN) (idx : ℕ) (rng : ℕ → ℚ) : Option Sample :=
  let t := testEnumTriple loop idx
  let pick := t.1
  let c := rotCosTab.getD t.2.1 1
  let s := rotSinTab.getD t.2.1 0
  let M := rotmat c s
  let norm1 := scene.norm.map (fun v => rowMul v M)
  let M2 := (scales.getD t.2.2 1) • M
  let xyz1 := scene.xyz.map (fun v => rowMul v M2)
  let xyz2 := recenter xyz1
  let indices := oracleTest xyz2 pick
  match gather indices xyz2, gather indices scene.lbl,
        gather indices scene.col, gather indices norm1 with
  | some xyz3, some lbl1, some col1, some norm2 =>
    let rgb := col1
    let col2 := col1.map (fun v => ((1 : ℚ) / 250) • v)
    let xyz4 := recenter xyz3
    let height := xyz4.map (fun p => p.2.2)
    some ⟨xyz4, featRows col2 height norm2, lbl1, rgb⟩
  | _, _, _, _ => none

/-- `S3DIS.get_test_item`: `pick = idx % loop * 5`, deterministic
subsampling, color rescale, a single re-centering after subsampling, no
rotation or scale.  `rng` is never consulted. -/
def s3disTestItem (oracleTest : List Vec3 → ℕ → List ℕ) (loop : ℕ)
    (scene : SceneS3) (idx : ℕ) (rng : ℕ → ℚ) : Option Sample :=
  let pick := idx % loop * 5
  let indices := oracleTest scene.xyz pick
  match gather indices scene.xyz, gather indices scene.lbl,
        gather indices scene.col with
  | some xyz1, some lbl1, some col1 =>
    let rgb := col1
    let col2 := col1.map (fun v => ((1 : ℚ) / 250) • v)
    let xyz2 := recenter xyz1
    let height := xyz2.map (fun p => p.2.2)
    some ⟨xyz2, featRowsS3 col2 height, lbl1, rgb⟩
  | _, _, _ => none

/-! ## Support lemmas -/

theorem gather_length {is : List ℕ} {xs : List α} {out : List α}
    (h : gather is xs = some out) : out.length = is.length := by
  induction is generalizing out with
  | nil =>
    simp only [gather, Option.some.injEq] at h
    subst h
    rfl
  | cons i is ih =>
    simp only [gather] at h
    cases hx : xs[i]? with
    | none => rw [hx] at h; simp at h
    | some x =>
      rw [hx] at h
      cases hg : gather is xs with
      | none => rw [hg] at h; simp at h
      | some ys =>
        rw [hg] at h
        simp at h
        subst h
        simp [ih hg]

theorem gather_mem {is : List ℕ} {xs : List α} {out : List α}
    (h : gather is xs = some out) : ∀ x ∈ out, x ∈ xs := by
  induction is generalizing out with
  | nil =>
    simp only [gather, Option.some.injEq] at h
    subst h
    simp
  | cons i is ih =>
    simp only [gather] at h
    cases hx : xs[i]? with
    | none => rw [hx] at h; simp at h
    | some x =>
      rw [hx] at h
      cases hg : gather is xs with
      | none => rw [hg] at h; simp at h
      | some ys =>
        rw [hg] at h
        simp at h
        subst h
        intro z hz
        rcases List.mem_cons.1 hz with h1 | h2
        · subst h1; exact List.getElem?_mem hx
        · exact ih hg z h2

theorem gather_sublist_drop {xs : List α} :
    ∀ (is : List ℕ), is.Pairwise (· < ·) → (∀ i ∈ is, i < xs.length) →
      ∀ m, (∀ i ∈ is, m ≤ i) →
        ∃ out, gather is xs = some out ∧ out.Sublist (xs.drop m)
  | [], _, _, m, _ => ⟨[], by simp [gather], by simp⟩
  | i :: is, hp, hb, m, hm => by
    have hi : i < xs.length := hb i (List.mem_cons_self i is)
    have hrest : ∀ j ∈ is, i + 1 ≤ j := by
      intro j hj
      exact Nat.succ_le_of_lt ((List.pairwise_cons.1 hp).1 j hj)
    obtain ⟨out, hout, hsub⟩ :=
      gather_sublist_drop is (List.pairwise_cons.1 hp).2
        (fun j hj => hb j (List.mem_cons_of_mem i hj)) (i + 1) hrest
    refine ⟨xs[i] :: out, ?_, ?_⟩
    · simp only [gather, hout, List.getElem?_eq_getElem hi]
    · have hdropi : xs.drop i = xs[i] :: xs.drop (i + 1) :=
        List.drop_eq_getElem_cons hi
      have h1 : (xs[i] :: out).Sublist (xs.drop i) := by
        rw [hdropi]
        exact List.Sublist.cons₂ _ hsub
      have h2 : (xs.drop i).Sublist (xs.drop m) := by
        have hmi : m ≤ i := hm i (List.mem_cons_self i is)
        have : xs.drop i = (xs.drop m).drop (i - m) := by
          rw [List.drop_drop]
          congr 1
          omega
        rw [this]
        exact List.drop_sublist _ _
      exact h1.trans h2

theorem gather_sublist (xs : List α) {is : List ℕ}
    (hp : is.Pairwise (· < ·)) (hb : ∀ i ∈ is, i < xs.length) :
    ∃ out, gather is xs = some out ∧ out.Sublist xs := by
  obtain ⟨out, h1, h2⟩ := gather_sublist_drop is hp hb 0 (fun _ _ => Nat.zero_le _)
  exact ⟨out, h1, by simpa using h2⟩

theorem argsort_perm (d : List ℚ) : (argsort d).Perm (List.range d.length) :=
  List.perm_insertionSort _ _

theorem cropCondition_perm (d : List ℚ) (v : ℕ) :
    (cropCondition d v).Perm ((argsort d).take v) :=
  List.perm_insertionSort _ _

theorem cropCondition_length (d : List ℚ) (v : ℕ) (hv : v ≤ d.length) :
    (cropCondition d v).length = v := by
  rw [(cropCondition_perm d v).length_eq, List.length_take,
    (argsort_perm d).length_eq, List.length_range]
  omega

theorem cropCondition_nodup (d : List ℚ) (v : ℕ) :
    (cropCondition d v).Nodup := by
  have h1 : (argsort d).Nodup :=
    ((argsort_perm d).nodup_iff).2 (List.nodup_range _)
  exact ((cropCondition_perm d v).nodup_iff).2 (h1.sublist (List.take_sublist _ _))

theorem cropCondition_mem (d : List ℚ) (v : ℕ) :
    ∀ i ∈ cropCondition d v, i < d.length := by
  intro i hi
  have h1 : i ∈ (argsort d).take v := ((cropCondition_perm d v).mem_iff).1 hi
  have h2 : i ∈ argsort d := List.mem_of_mem_take h1
  have h3 : i ∈ List.range d.length := ((argsort_perm d).mem_iff).1 h2
  exact List.mem_range.1 h3

theorem cropCondition_sorted (d : List ℚ) (v : ℕ) :
    (cropCondition d v).Sorted (· ≤ ·) :=
  List.sorted_insertionSort _ _

theorem cropCondition_pairwise_lt (d : List ℚ) (v : ℕ) :
    (cropCondition d v).Pairwise (· < ·) :=
  (cropCondition_sorted d v).lt_of_le (cropCondition_nodup d v)

theorem qmin_sub_sub_right (a b c : ℚ) : qmin (a - c) (b - c) = qmin a b - c := by
  simp only [qmin_eq_min]
  exact min_sub_sub_right a b c

theorem foldl_min_map_sub (c : ℚ) :
    ∀ (ys : List ℚ) (x : ℚ),
      List.foldl qmin (x - c) (ys.map (fun t => t - c)) = List.foldl qmin x ys - c := by
  intro ys
  induction ys with
  | nil => intro x; simp
  | cons y ys ih =>
    intro x
    simp only [List.map_cons, List.foldl_cons]
    rw [qmin_sub_sub_right, ih]

theorem qminList_map_sub (c : ℚ) :
    ∀ (l : List ℚ), l ≠ [] → qminList (l.map (fun x => x - c)) = qminList l - c := by
  intro l hl
  match l, hl with
  | x :: xs, _ =>
    simp only [List.map_cons, qminList]
    exact foldl_min_map_sub c xs x

theorem recenter_min_eq_zero (ps : List Vec3) (hps : ps ≠ []) :
    vminList (recenter ps) = 0 := by
  have hne1 : ps.map (fun p => p.1) ≠ [] := by simpa using hps
  have hne2 : ps.map (fun p => p.2.1) ≠ [] := by simpa using hps
  have hne3 : ps.map (fun p => p.2.2) ≠ [] := by simpa using hps
  have h1 : (recenter ps).map (fun p => p.1) =
      (ps.map (fun p => p.1)).map (fun x => x - (vminList ps).1) := by
    simp [recenter, Prod.sub_def]
  have h2 : (recenter ps).map (fun p => p.2.1) =
      (ps.map (fun p => p.2.1)).map (fun x => x - (vminList ps).2.1) := by
    simp [recenter, Prod.sub_def]
  have h3 : (recenter ps).map (fun p => p.2.2) =
      (ps.map (fun p => p.2.2)).map (fun x => x - (vminList ps).2.2) := by
    simp [recenter, Prod.sub_def]
  apply vec3_eq <;>
    simp only [vminList, h1, h2, h3, qminList_map_sub _ _ hne1,
      qminList_map_sub _ _ hne2, qminList_map_sub _ _ hne3]
  · simp [vminList]
  · simp [vminList]
  · simp [vminList]

theorem elastic_distortion_length (coords : List Vec3) (g m : ℚ) (n : GridF) :
    (elastic_distortion coords g m n).length = coords.length := by
  simp [elastic_distortion]

theorem foldl_elastic_length (l : List ((ℚ × ℚ) × GridF)) :
    ∀ c : List Vec3,
      (l.foldl (fun c pn => elastic_distortion c pn.1.1 pn.1.2 pn.2) c).length
        = c.length := by
  induction l with
  | nil => intro c; simp
  | cons p l ih =>
    intro c
    simp only [List.foldl_cons]
    rw [ih, elastic_distortion_length]

theorem elsCall_length (b : Bool) (ns : List GridF) (c : List Vec3) :
    (elsCall b ns c).length = c.length := by
  cases b with
  | false => simp [elsCall]
  | true => simp only [elsCall, if_pos]; exact foldl_elastic_length _ c

theorem featRows_length :
    ∀ (cs : List Vec3) (hs : List ℚ) (ns : List Vec3),
      cs.length = hs.length → hs.length = ns.length →
      (featRows cs hs ns).length = cs.length
  | [], [], [], _, _ => rfl
  | c :: cs, h :: hs, n :: ns, e1, e2 => by
    simp only [featRows, List.length_cons]
    have := featRows_length cs hs ns (by simpa using e1) (by simpa using e2)
    omega
  | [], h :: hs, ns, e1, _ => by simp at e1
  | c :: cs, [], ns, e1, _ => by simp at e1
  | c :: cs, h :: hs, [], _, e2 => by simp at e2

theorem featRowsS3_length :
    ∀ (cs : List Vec3) (hs : List ℚ),
      cs.length = hs.length → (featRowsS3 cs hs).length = cs.length
  | [], [], _ => rfl
  | c :: cs, h :: hs, e1 => by
    simp only [featRowsS3, List.length_cons]
    have := featRowsS3_length cs hs (by simpa using e1)
    omega
  | [], h :: hs, e1 => by simp at e1
  | c :: cs, [], e1 => by simp at e1

theorem colorAug_length (b1 b2 : Bool) (a : ℚ) (col : List Vec3) :
    (colorAug b1 b2 a col).length = col.length := by
  cases b1 <;> cases b2 <;> simp [colorAug, contrastStretch]

/-! ## Spec-shaped test pipelines (for the refinement claims) -/

/-- The spec's wording of the test rigid transform: rotation embedded
about the vertical axis, normals rotated without scale, positions
rotated-then-scaled. -/
def rigidTestSpec (c s k : ℚ) (xyz norm : List Vec3) :
    List Vec3 × List Vec3 :=
  (xyz.map (fun v => k • rowMul v (rotmat c s)),
   norm.map (fun v => rowMul v (rotmat c s)))

/-- The spec's wording of `ScanNetV2.get_test_item` (§4.5): rigid
transform from the enumerated catalogs, re-center, deterministic
subsample, re-center again, color deterministically rescaled only. -/
def scannetTestSpecItem (oracleTest : List Vec3 → ℕ → List ℕ) (loop : ℕ)
    (scene : SceneSN) (idx : ℕ) : Option Sample :=
  let t := testEnumTriple loop idx
  let c := rotCosTab.getD t.2.1 1
  let s := rotSinTab.getD t.2.1 0
  let k := scales.getD t.2.2 1
  let pr := rigidTestSpec c s k scene.xyz scene.norm
  let xyzC := recenter pr.1
  let indices := oracleTest xyzC t.1
  match gather indices xyzC, gather indices scene.lbl,
        gather indices scene.col, gather indices pr.2 with
  | some xyz3, some lbl1, some col1, some norm2 =>
    let posOut := recenter xyz3
    some ⟨posOut,
      featRows (col1.map (fun v => ((1 : ℚ) / 250) • v))
        (posOut.map (fun p => p.2.2)) norm2,
      lbl1, col1⟩
  | _, _, _, _ => none

/-- The spec's wording of `S3DIS.get_test_item` as the code has it: a
deterministic pick, subsample, color rescale, and a single re-centering
applied after the subsampling; no rotation or scale. -/
def s3disTestSpecOnce (oracleTest : List Vec3 → ℕ → List ℕ) (loop : ℕ)
    (scene : SceneS3) (idx : ℕ) : Option Sample :=
  let indices := oracleTest scene.xyz (idx % loop * 5)
  match gather indices scene.xyz, gather indices scene.lbl,
        gather indices scene.col with
  | some xyz1, some lbl1, some col1 =>
    let posOut := recenter xyz1
    some ⟨posOut,
      featRowsS3 (col1.map (fun v => ((1 : ℚ) / 250) • v))
        (posOut.map (fun p => p.2.2)),
      lbl1, col1⟩
  | _, _, _ => none

/-- The claim's reading of `S3DIS.get_test_item`: re-centering applied
twice, in particular once *before* the deterministic subsampling (this
is what the claim's "exactly twice" forces for a pipeline with no rigid
transform step). -/
def s3disTestSpecTwice (oracleTest : List Vec3 → ℕ → List ℕ) (loop : ℕ)
    (scene : SceneS3) (idx : ℕ) : Option Sample :=
  let xyz0 := recenter scene.xyz
  let indices := oracleTest xyz0 (idx % loop * 5)
  match gather indices xyz0, gather indices scene.lbl,
        gather indices scene.col with
  | some xyz1, some lbl1, some col1 =>
    let posOut := recenter xyz1
    some ⟨posOut,
      featRowsS3 (col1.map (fun v => ((1 : ℚ) / 250) • v))
        (posOut.map (fun p => p.2.2)),
      lbl1, col1⟩
  | _, _, _ => none

/-- A deterministic subsampling oracle that is sensitive to the absolute
position of the cloud it receives: it selects row 0 when the first point
is the origin and row 1 otherwise. -/
def cexOracle : List Vec3 → ℕ → List ℕ :=
  fun ps _ => if ps.getD 0 0 = ((0 : ℚ), (0 : ℚ), (0 : ℚ)) then [0] else [1]

/-- A two-point S3DIS scene with distinct labels, positioned away from
the origin. -/
def cexScene : SceneS3 :=
  ⟨[((1 : ℚ), (1 : ℚ), (1 : ℚ)), ((2 : ℚ), (2 : ℚ), (2 : ℚ))],
   [((10 : ℚ), (10 : ℚ), (10 : ℚ)), ((20 : ℚ), (20 : ℚ), (20 : ℚ))],
   [5, 7]⟩

/-! ## Row-count bookkeeping -/

/-- All per-point arrays of a returned sample have the same number of
rows (vacuous when the pipeline fails). -/
def sampleRowsEq : Option Sample → Prop
  | none => True
  | some s => s.pos.length = s.feature.length ∧ s.feature.length = s.lbl.length ∧
      s.lbl.length = s.rgb.length

theorem cropStepO_length {v a : ℕ} {xs : List Vec3} {is : List ℕ}
    {pr2 : List Vec3 × List ℕ}
    (h : cropStepO v a xs is = some pr2) (hlen : is.length = xs.length) :
    pr2.1.length = pr2.2.length := by
  obtain ⟨xs2, is2⟩ := pr2
  simp only
  unfold cropStepO at h
  by_cases hv : v < xs.length
  · rw [if_pos hv] at h
    dsimp only at h
    split at h
    · rename_i xg ig hxg hig
      simp only [Option.some.injEq, Prod.mk.injEq] at h
      obtain ⟨h1, h2⟩ := h
      subst h1
      subst h2
      rw [gather_length hxg, gather_length hig]
    · simp at h
  · rw [if_neg hv] at h
    simp only [Option.some.injEq, Prod.mk.injEq] at h
    obtain ⟨h1, h2⟩ := h
    subst h1
    subst h2
    exact hlen.symm

theorem scannetTrainItem_rows (gridSub : List Vec3 → List ℕ) (voxelMax : ℕ)
    (scene : SceneSN) (d : TrainDraws) :
    sampleRowsEq (scannetTrainItem gridSub voxelMax scene d) := by
  unfold scannetTrainItem
  dsimp only
  split
  · trivial
  · rename_i xyz4 h1
    split
    · trivial
    · rename_i pr2 h2
      split
      · rename_i col1 lbl1 norm2 h3 h4 h5
        have hx4 : xyz4.length = (gridSub (recenter (elsCall d.applyEls
            [d.noise1, d.noise2] (trainRigid d.c d.s d.k scene.xyz scene.norm).1))).length :=
          gather_length h1
        have hcrop : pr2.1.length = pr2.2.length :=
          cropStepO_length h2 (by rw [hx4])
        have hc : col1.length = pr2.2.length := gather_length h3
        have hl : lbl1.length = pr2.2.length := gather_length h4
        have hn : norm2.length = pr2.2.length := gather_length h5
        simp only [sampleRowsEq]
        have hcol2 : (colorAug d.dropColor d.doContrast d.contrastAlpha col1).length
            = pr2.2.length := by rw [colorAug_length, hc]
        have hheight : (pr2.1.map (fun p => p.2.2)).length = pr2.2.length := by
          rw [List.length_map, hcrop]
        have hnorm3 : (if d.dropNorm then norm2.map (fun _ => (0 : Vec3)) else norm2).length
            = pr2.2.length := by
          split <;> simp [hn]
        have hfeat : (featRows (colorAug d.dropColor d.doContrast d.contrastAlpha col1)
            (pr2.1.map (fun p => p.2.2))
            (if d.dropNorm then norm2.map (fun _ => (0 : Vec3)) else norm2)).length
            = pr2.2.length := by
          rw [featRows_length _ _ _ (by rw [hcol2, hheight]) (by rw [hheight, hnorm3]), hcol2]
        refine ⟨?_, ?_, ?_⟩
        · rw [hfeat, hcrop]
        · rw [hfeat, hl]
        · rw [hl, hc]
      · trivial

theorem s3disTrainItem_rows (gridSub : List Vec3 → List ℕ) (voxelMax : ℕ)
    (scene : SceneS3) (d : TrainDrawsS3) :
    sampleRowsEq (s3disTrainItem gridSub voxelMax scene d) := by
  unfold s3disTrainItem
  dsimp only
  split
  · trivial
  · rename_i xyz4 h1
    split
    · trivial
    · rename_i pr2 h2
      split
      · rename_i col1 lbl1 h3 h4
        have hx4 := gather_length h1
        have hcrop : pr2.1.length = pr2.2.length :=
          cropStepO_length h2 (by rw [hx4])
        have hc : col1.length = pr2.2.length := gather_length h3
        have hl : lbl1.length = pr2.2.length := gather_length h4
        simp only [sampleRowsEq]
        have hcol2 : (colorAug d.dropColor d.doContrast d.contrastAlpha col1).length
            = pr2.2.length := by rw [colorAug_length, hc]
        have hheight : (pr2.1.map (fun p => p.2.2)).length = pr2.2.length := by
          rw [List.length_map, hcrop]
        have hfeat : (featRowsS3 (colorAug d.dropColor d.doContrast d.contrastAlpha col1)
            (pr2.1.map (fun p => p.2.2))).length = pr2.2.length := by
          rw [featRowsS3_length _ _ (by rw [hcol2, hheight]), hcol2]
        refine ⟨?_, ?_, ?_⟩
        · rw [hfeat, hcrop]
        · rw [hfeat, hl]
        · rw [hl, hc]
      · trivial

theorem scannetTestItem_rows (oracleTest : List Vec3 → ℕ → List ℕ) (loop : ℕ)
    (scene : SceneSN) (idx : ℕ) (rng : ℕ → ℚ) :
    sampleRowsEq (scannetTestItem oracleTest loop scene idx rng) := by
  unfold scannetTestItem
  dsimp only
  split
  · rename_i xyz3 lbl1 col1 norm2 h1 h2 h3 h4
    have hx := gather_length h1
    have hl := gather_length h2
    have hc := gather_length h3
    have hn := gather_length h4
    simp only [sampleRowsEq]
    have hrec : (recenter xyz3).length = xyz3.length := by simp [recenter]
    have hheight : ((recenter xyz3).map (fun p => p.2.2)).length = xyz3.length := by
      rw [List.length_map, hrec]
    have hfeat : (featRows (col1.map (fun v => ((1 : ℚ) / 250) • v))
        ((recenter xyz3).map (fun p => p.2.2)) norm2).length = xyz3.length := by
      rw [featRows_length _ _ _ (by rw [List.length_map, hc, hheight, hx])
        (by rw [hheight, hn, hx]), List.length_map, hc, hx]
    refine ⟨?_, ?_, ?_⟩
    · rw [hfeat, hrec]
    · rw [hfeat, hl, hx]
    · rw [hl, hc]
  · trivial

theorem s3disTestItem_rows (oracleTest : List Vec3 → ℕ → List ℕ) (loop : ℕ)
    (scene : SceneS3) (idx : ℕ) (rng : ℕ → ℚ) :
    sampleRowsEq (s3disTestItem oracleTest loop scene idx rng) := by
  unfold s3disTestItem
  dsimp only
  split
  · rename_i xyz1 lbl1 col1 h1 h2 h3
    have hx := gather_length h1
    have hl := gather_length h2
    have hc := gather_length h3
    simp only [sampleRowsEq]
    have hrec : (recenter xyz1).length = xyz1.length := by simp [recenter]
    have hheight : ((recenter xyz1).map (fun p => p.2.2)).length = xyz1.length := by
      rw [List.length_map, hrec]
    have hfeat : (featRowsS3 (col1.map (fun v => ((1 : ℚ) / 250) • v))
        ((recenter xyz1).map (fun p => p.2.2))).length = xyz1.length := by
      rw [featRowsS3_length _ _ (by rw [List.length_map, hc, hheight, hx]),
        List.length_map, hc, hx]
    refine ⟨?_, ?_, ?_⟩
    · rw [hfeat, hrec]
    · rw [hfeat, hl, hx]
    · rw [hl, hc]
  · trivial

/-! ## Concrete fixtures -/

/-- Three collinear points used to exercise the crop. -/
def cropXyzCex : List Vec3 :=
  [((0 : ℚ), (0 : ℚ), (0 : ℚ)), ((1 : ℚ), (0 : ℚ), (0 : ℚ)),
   ((2 : ℚ), (0 : ℚ), (0 : ℚ))]

/-- A distinct subsample index vector paired with `cropXyzCex`. -/
def cropIdxCex : List ℕ := [4, 7, 9]

/-- A scene whose per-point tensors disagree in point count: one
position row but zero color/normal/label rows. -/
def badScene : SceneSN :=
  ⟨[((0 : ℚ), (0 : ℚ), (0 : ℚ))], [], [], []⟩

/-- Helper: every noise-grid axis length is at least 2, so the linspace
denominator `d − 1` never vanishes. -/
theorem two_le_noiseDim (e g : ℚ) : 2 ≤ noiseDim e g := by
  unfold noiseDim
  omega

/-! ## Claims -/

/-- Claim C1: for variant index `v = idx % loop` with
`augs_per_offset = len(rotations) × len(scales)`, the deterministic
enumeration selects `offset = v / augs_per_offset`,
`rotation_index = (v % augs_per_offset) / len(scales)` and
`scale_index = (v % augs_per_offset) % len(scales)`; concretely, with
`loop = 12`, variant 7 maps to rotation index 2 (angle `π`), scale
index 1 (scale 1) and offset 0. -/
theorem claim_C1 :
    (∀ loop idx : ℕ,
      testEnumTriple loop idx =
        ((idx % loop) / (rotations.length * scales.length),
         ((idx % loop) % (rotations.length * scales.length)) / scales.length,
         ((idx % loop) % (rotations.length * scales.length)) % scales.length))
    ∧ testEnumTriple 12 7 = (0, 2, 1)
    ∧ rotations.getD 2 0 = 1 ∧ scales.getD 1 0 = 1
    ∧ Real.pi * ((rotations.getD 2 0 : ℚ) : ℝ) = Real.pi := by
  refine ⟨fun loop idx => rfl, by decide, by decide, by decide, ?_⟩
  norm_num [rotations]

/-- Claim C2: when the subsampled point count exceeds `voxel_max`, the
locality-preserving crop succeeds and returns exactly `voxel_max`
output indices, distinct, drawn from the input index vector and in
non-decreasing original order (a sublist of the input); when the count
is at most `voxel_max`, the crop step returns its inputs unchanged. -/
theorem claim_C2 (xyz : List Vec3) (indices : List ℕ) (anchor voxelMax : ℕ)
    (hlen : indices.length = xyz.length) (hnd : indices.Nodup) :
    (voxelMax < xyz.length →
      ∃ xyzOut idxOut,
        cropStepO voxelMax anchor xyz indices = some (xyzOut, idxOut) ∧
        xyzOut.length = voxelMax ∧ idxOut.length = voxelMax ∧ idxOut.Nodup ∧
        idxOut.Sublist indices ∧ ∀ i ∈ idxOut, i ∈ indices)
    ∧ (xyz.length ≤ voxelMax →
        cropStepO voxelMax anchor xyz indices = some (xyz, indices)) := by
  constructor
  · intro hgt
    have hcl : (cropCondition
        (xyz.map (fun q => sqnorm (q - xyz.getD (anchor % xyz.length) 0)))
        voxelMax).length = voxelMax :=
      cropCondition_length _ _ (by rw [List.length_map]; omega)
    have hpw := cropCondition_pairwise_lt
      (xyz.map (fun q => sqnorm (q - xyz.getD (anchor % xyz.length) 0))) voxelMax
    have hmem := cropCondition_mem
      (xyz.map (fun q => sqnorm (q - xyz.getD (anchor % xyz.length) 0))) voxelMax
    obtain ⟨xg, hxg, hxsub⟩ := gather_sublist xyz hpw (fun i hi => by
      have := hmem i hi
      rw [List.length_map] at this
      omega)
    obtain ⟨ig, hig, hisub⟩ := gather_sublist indices hpw (fun i hi => by
      have := hmem i hi
      rw [List.length_map] at this
      omega)
    refine ⟨xg, ig, ?_, ?_, ?_, ?_, hisub, fun i hi => hisub.subset hi⟩
    · unfold cropStepO
      rw [if_pos hgt]
      dsimp only
      rw [hxg, hig]
    · rw [gather_length hxg, hcl]
    · rw [gather_length hig, hcl]
    · exact List.Nodup.sublist hisub hnd
  · intro hle
    unfold cropStepO
    rw [if_neg (by omega)]

/-- Claim C2 witness: the crop at `voxel_max = 2` on a 3-point cloud. -/
theorem claim_C2_witness :
    ∃ xyzOut idxOut,
      cropStepO 2 0 cropXyzCex cropIdxCex = some (xyzOut, idxOut) ∧
      xyzOut.length = 2 ∧ idxOut.length = 2 ∧ idxOut.Nodup ∧
      idxOut.Sublist cropIdxCex ∧ ∀ i ∈ idxOut, i ∈ cropIdxCex :=
  (claim_C2 cropXyzCex cropIdxCex 0 2 (by decide) (by decide)).1 (by decide)

/-- Claim C3: the test-time constructions of both datasets are functions
of the scene, the configuration and the index alone — they never consult
the random stream, so two runs give bit-identical samples. -/
theorem claim_C3 (oracleSN oracleS3 : List Vec3 → ℕ → List ℕ) (loop : ℕ)
    (sceneSN : SceneSN) (sceneS3 : SceneS3) (idx : ℕ) (rng1 rng2 : ℕ → ℚ) :
    scannetTestItem oracleSN loop sceneSN idx rng1
      = scannetTestItem oracleSN loop sceneSN idx rng2
    ∧ s3disTestItem oracleS3 loop sceneS3 idx rng1
      = s3disTestItem oracleS3 loop sceneS3 idx rng2 :=
  ⟨rfl, rfl⟩

/-- Claim C4 counterexample: the claim is not true of every test-time
construction.  `S3DIS.get_test_item` re-centers only once (after the
final subsampling) and applies no rotation/scale; on a scene positioned
away from the origin with a position-sensitive deterministic subsampling
oracle, the claimed twice-re-centered pipeline selects different rows
than the code does. -/
theorem claim_C4_counterexample :
    s3disTestItem cexOracle 1 cexScene 0 (fun _ => 0)
      ≠ s3disTestSpecTwice cexOracle 1 cexScene 0 := by
  intro h
  have h2 := congrArg (fun o => Option.map Sample.lbl o) h
  have e1 : (s3disTestItem cexOracle 1 cexScene 0 (fun _ => 0)).map Sample.lbl
      = some [7] := by rfl
  have e2 : (s3disTestSpecTwice cexOracle 1 cexScene 0).map Sample.lbl
      = some [5] := by
    norm_num [s3disTestSpecTwice, cexOracle, cexScene, recenter, vminList,
      qminList, qmin, gather, Prod.sub_def]
  simp only at h2
  rw [e1, e2] at h2
  simp at h2

/-- Claim C4 (amended): `ScanNetV2.get_test_item` re-centers exactly
twice — once after the rigid transform and once after the final
deterministic subsampling, both with the zero-minimum convention — and
applies the enumerated rotation/scale exactly as in training (normals by
the unscaled matrix, positions by the scaled one) with color only
deterministically rescaled; `S3DIS.get_test_item`, however, applies no
rotation/scale and re-centers exactly once, after the subsampling. -/
theorem claim_C4_amended (oracleSN oracleS3 : List Vec3 → ℕ → List ℕ)
    (loop : ℕ) (sceneSN : SceneSN) (sceneS3 : SceneS3) (idx : ℕ)
    (rng : ℕ → ℚ) (ps : List Vec3) :
    scannetTestItem oracleSN loop sceneSN idx rng
      = scannetTestSpecItem oracleSN loop sceneSN idx
    ∧ s3disTestItem oracleS3 loop sceneS3 idx rng
      = s3disTestSpecOnce oracleS3 loop sceneS3 idx
    ∧ (ps ≠ [] → vminList (recenter ps) = 0) := by
  refine ⟨?_, rfl, recenter_min_eq_zero ps⟩
  simp only [scannetTestItem, scannetTestSpecItem, rigidTestSpec, rowMul_smul]

/-- Claim C4 witness: the zero-minimum convention at a concrete cloud. -/
theorem claim_C4_witness :
    vminList (recenter [((1 : ℚ), (2 : ℚ), (3 : ℚ))]) = 0 :=
  (claim_C4_amended (fun _ _ => []) (fun _ _ => []) 1 default default 0
    (fun _ => 0) [((1 : ℚ), (2 : ℚ), (3 : ℚ))]).2.2 (by simp)

/-- Claim C5: one elastic-distortion pass adds to every input point
`magnitude` times the trilinear interpolation of the noise grid smoothed
by two full three-axis passes of the length-3 uniform averaging kernel
under zero padding (6 stored convolutions); the interpolation nodes are
evenly spaced with spacing `granularity` starting at
`min − granularity` (i.e. across `[min − granularity,
min + granularity·(shape − 2)]`), and out-of-bounds queries contribute a
zero displacement. -/
theorem claim_C5 (coords : List Vec3) (g m : ℚ) (noise : GridF) :
    elastic_distortion coords g m noise
      = coords.map (fun p =>
          p + m • triInterp (smoothNoiseSpec (elasticDims coords g) noise)
                  (vminList coords) g (elasticDims coords g) p)
    ∧ (∀ t : ℕ,
        linNode (vminList coords).1 g (elasticDims coords g).1 t
          = (vminList coords).1 - g + g * (t : ℚ))
    ∧ (∀ t : ℕ,
        linNode (vminList coords).2.1 g (elasticDims coords g).2.1 t
          = (vminList coords).2.1 - g + g * (t : ℚ))
    ∧ (∀ t : ℕ,
        linNode (vminList coords).2.2 g (elasticDims coords g).2.2 t
          = (vminList coords).2.2 - g + g * (t : ℚ))
    ∧ (∀ q : Vec3,
        ¬ inBounds (vminList coords) g (elasticDims coords g) q →
          triInterp (smoothNoiseSpec (elasticDims coords g) noise)
            (vminList coords) g (elasticDims coords g) q = 0) := by
  refine ⟨?_, ?_, ?_, ?_, ?_⟩
  · simp only [elastic_distortion]
    rw [smoothNoise_eq_spec]
  · intro t
    exact linNode_eq _ _ _ (two_le_noiseDim _ _) t
  · intro t
    exact linNode_eq _ _ _ (two_le_noiseDim _ _) t
  · intro t
    exact linNode_eq _ _ _ (two_le_noiseDim _ _) t
  · intro q hq
    simp [triInterp, hq]

/-- Claim C6: with positive granularity the noise-grid shape
`floor(extent / granularity) + 3` is always well defined and at least 3,
and a zero-extent axis yields a grid shape of exactly 3. -/
theorem claim_C6 (g : ℚ) (hg : 0 < g) :
    noiseDim 0 g = 3 ∧ (∀ e : ℚ, 3 ≤ noiseDim e g) := by
  constructor
  · unfold noiseDim
    rw [zero_div]
    simp
  · intro e
    unfold noiseDim
    omega

/-- Claim C6 witness: granularity 1. -/
theorem claim_C6_witness :
    0 < (1 : ℚ) ∧ (noiseDim 0 1 = 3 ∧ ∀ e : ℚ, 3 ≤ noiseDim e 1) :=
  ⟨by decide, claim_C6 1 (by decide)⟩

/-- Claim C7: in the training rigid transform, normals are multiplied by
the unscaled rotation matrix (pure rotation, z unaffected), and
positions are multiplied by that same matrix after scaling by the drawn
factor `k`, i.e. positions receive rotation-then-scale. -/
theorem claim_C7 (c s k : ℚ) (xyz norm : List Vec3) :
    (trainRigid c s k xyz norm).2
      = norm.map (fun v => (v.1 * c - v.2.1 * s, v.1 * s + v.2.1 * c, v.2.2))
    ∧ (trainRigid c s k xyz norm).1
      = xyz.map (fun v => k • rowMul v (rotmat c s))
    ∧ ∀ v : Vec3, (rowMul v (rotmat c s)).2.2 = v.2.2 := by
  refine ⟨?_, ?_, ?_⟩
  · simp [trainRigid, rowMul_rotmat]
  · simp [trainRigid, rowMul_smul]
  · intro v
    rw [rowMul_rotmat]

/-- Claim C8: for every sampled angle, the unscaled rotation matrix
applied to normals is orthogonal: its transpose is a two-sided inverse
(hence equals its inverse) and its determinant is 1 (so in particular
±1). -/
theorem claim_C8 (θ : ℝ) :
    (rotmat (Real.cos θ) (Real.sin θ)).transpose * rotmat (Real.cos θ) (Real.sin θ) = 1
    ∧ rotmat (Real.cos θ) (Real.sin θ) * (rotmat (Real.cos θ) (Real.sin θ)).transpose = 1
    ∧ (rotmat (Real.cos θ) (Real.sin θ))⁻¹ = (rotmat (Real.cos θ) (Real.sin θ)).transpose
    ∧ (rotmat (Real.cos θ) (Real.sin θ)).det = 1 := by
  have hcs := Real.sin_sq_add_cos_sq θ
  have ht : (rotmat (Real.cos θ) (Real.sin θ)).transpose
      = rotmat (Real.cos θ) (-Real.sin θ) := by
    ext i j
    fin_cases i <;> fin_cases j <;>
      simp [rotmat, Matrix.transpose_apply]
  have h1 : (rotmat (Real.cos θ) (Real.sin θ)).transpose
      * rotmat (Real.cos θ) (Real.sin θ) = 1 := by
    rw [ht]
    ext i j
    fin_cases i <;> fin_cases j <;>
      simp [rotmat, Matrix.mul_apply, Fin.sum_univ_three, Matrix.one_apply] <;>
      nlinarith [hcs]
  have h2 : rotmat (Real.cos θ) (Real.sin θ)
      * (rotmat (Real.cos θ) (Real.sin θ)).transpose = 1 := by
    rw [ht]
    ext i j
    fin_cases i <;> fin_cases j <;>
      simp [rotmat, Matrix.mul_apply, Fin.sum_univ_three, Matrix.one_apply] <;>
      nlinarith [hcs]
  refine ⟨h1, h2, Matrix.inv_eq_left_inv h1, ?_⟩
  rw [Matrix.det_fin_three]
  simp [rotmat]
  nlinarith [hcs]

/-- Claim C9 counterexample: dataset construction performs no per-scene
shape validation — it succeeds on a scene whose positions, colors,
normals and labels disagree in point count, so "construction succeeds
only when all loaded scenes have row-aligned tensors" is false. -/
theorem claim_C9_counterexample :
    (scanInit [badScene] true false).isSome = true ∧ ¬ rowAligned badScene := by
  constructor
  · rfl
  · decide

/-- Claim C9 (amended): construction fails only when the resolved scene
list is empty; no per-scene shape check is performed, and a scene with
mismatched tensor lengths is loaded successfully — mismatches surface
(if at all) only later, at indexing time. -/
theorem claim_C9_amended :
    (∀ (scenes : List SceneSN) (train warmup : Bool),
      (scanInit scenes train warmup).isSome = true ↔ scenes ≠ [])
    ∧ scanInit [badScene] true false = some [badScene]
    ∧ ¬ rowAligned badScene := by
  refine ⟨?_, rfl, by decide⟩
  intro scenes train warmup
  match scenes with
  | [] => simp [scanInit]
  | a :: as =>
    simp only [scanInit, List.length_cons]
    split_ifs <;> simp_all

/-- Claim C10: in training and test mode, on both datasets, every
successfully returned sample has positions, feature, labels and raw
color with the same number of rows — every size-reducing step selects
all per-point arrays through one shared index vector. -/
theorem claim_C10 (gridSubSN gridSubS3 : List Vec3 → List ℕ)
    (oracleSN oracleS3 : List Vec3 → ℕ → List ℕ) (voxelMax loop idx : ℕ)
    (sceneSN : SceneSN) (sceneS3 : SceneS3) (dSN : TrainDraws)
    (dS3 : TrainDrawsS3) (rng : ℕ → ℚ) :
    sampleRowsEq (scannetTrainItem gridSubSN voxelMax sceneSN dSN)
    ∧ sampleRowsEq (scannetTestItem oracleSN loop sceneSN idx rng)
    ∧ sampleRowsEq (s3disTrainItem gridSubS3 voxelMax sceneS3 dS3)
    ∧ sampleRowsEq (s3disTestItem oracleS3 loop sceneS3 idx rng) :=
  ⟨scannetTrainItem_rows gridSubSN voxelMax sceneSN dSN,
   scannetTestItem_rows oracleSN loop sceneSN idx rng,
   s3disTrainItem_rows gridSubS3 voxelMax sceneS3 dS3,
   s3disTestItem_rows oracleS3 loop sceneS3 idx rng⟩
